import Mathlib

/-!
Verification of the loop-unrolling pass (`src/pass/unroll_loop.cc`).

The pass walks an IR statement tree bottom-up.  At each `For` node it
resolves the extent to an integer (when possible), decides via a budget
heuristic whether the loop should be unrolled, and either materializes
the unrolled body, tags the loop `Unrolled`, or leaves it alone.  Scope
counters (`step_count_`, `unroll_depth_`, `normal_loop_depth_`) are
threaded through the traversal exactly as the C++ member fields are.
-/

namespace TVMUnroll

/-- Numeric types carried by IR variables and literals. -/
inductive DType where
  | int32
  | uint32
  | handle
deriving DecidableEq

/-- IR expressions: the fragment needed by the unroller (`IntImm`,
`UIntImm`, variables, and additions produced by `ComputeExpr<Add>`). -/
inductive Expr where
  | IntImm (ty : DType) (value : Int)
  | UIntImm (ty : DType) (value : Nat)
  | Var (id : Nat) (ty : DType)
  | Add (a b : Expr)
deriving DecidableEq

/-- `ForType` of a loop node, as in `tvm/ir.h`. -/
inductive ForType where
  | Serial
  | Parallel
  | Vectorized
  | Unrolled
deriving DecidableEq

/-- IR statements: the node kinds the unroller visits (`For`, `Store`,
`Evaluate`, `Block`). -/
inductive Stmt where
  | For (loopVar : Nat) (ty : DType) (min extent : Expr) (forType : ForType)
        (deviceApi : Nat) (body : Stmt)
  | Store (bufferVar : Nat) (value : Expr) (index : Expr)
  | Evaluate (e : Expr)
  | Block (first rest : Stmt)
deriving DecidableEq

/-- The three scope counters of `LoopUnroller` (`step_count_`,
`unroll_depth_`, `normal_loop_depth_`), all C++ `int`s starting at 0. -/
structure Scope where
  stepCount : Int
  unrollDepth : Int
  normalLoopDepth : Int
deriving DecidableEq

/-- Initial all-zero scope (the field initializers `{0}`). -/
def Scope.zero : Scope := ⟨0, 0, 0⟩

/-- Constructor parameters of `LoopUnroller`. -/
structure Config where
  autoMaxStep : Int
  autoMaxDepth : Int
  explicitUnroll : Bool
deriving DecidableEq

/-- Modelled from the spec: the external Expression Simplifier
(`ir::Simplify`, not part of this repository's sources).  A literal is
returned unchanged; otherwise constant folding is attempted and either a
literal or the original expression is returned. -/
def Simplify : Expr → Expr
  | Expr.Add a b =>
    match Simplify a, Simplify b with
    | Expr.IntImm ty x, Expr.IntImm _ y => Expr.IntImm ty (x + y)
    | _, _ => Expr.Add a b
  | e => e

/-- The C++ `static_cast<int>` applied to a 64-bit literal value:
wrap into the signed 32-bit range. -/
def int32OfInt (v : Int) : Int := (v + 2 ^ 31) % 2 ^ 32 - 2 ^ 31

/-- Lines 31-40 of the pass: simplify the extent, then read it as an
`IntImm` or `UIntImm`, casting to `int`; otherwise `value = -1`. -/
def extentValue (ext : Expr) : Int :=
  match Simplify ext with
  | Expr.IntImm _ v => int32OfInt v
  | Expr.UIntImm _ v => int32OfInt (Int.ofNat v)
  | _ => -1

/-- Lines 42-48: the `auto_unroll` condition computed for every loop. -/
def autoUnrollCond (cfg : Config) (ft : ForType) (value : Int) (sc : Scope) : Bool :=
  decide (ft = ForType.Serial) &&
  decide (sc.normalLoopDepth = 0) &&
  decide (0 ≤ value) &&
  decide (sc.unrollDepth ≤ cfg.autoMaxDepth) &&
  decide (value * sc.stepCount ≤ cfg.autoMaxStep)

/-- Lines 42-54: the final unroll decision for a loop node evaluated at
scope `sc`.  `none` models the fatal `CHECK_GE(value, 0)` on an
`Unrolled`-tagged loop; otherwise the decision is the `auto_unroll`
condition, forced to `true` for an `Unrolled`-tagged loop. -/
def forDecision (cfg : Config) (ft : ForType) (ext : Expr) (sc : Scope) : Option Bool :=
  let value := extentValue ext
  if ft = ForType.Unrolled ∧ value < 0 then none
  else some (autoUnrollCond cfg ft value sc || decide (ft = ForType.Unrolled))

/-- Lines 56-61: scope update after the decision: an unrolled loop
multiplies `step_count_` by `value` and bumps `unroll_depth_`; a kept
loop bumps `normal_loop_depth_`. -/
def forUpdateScope (sc1 : Scope) (value : Int) (au : Bool) : Scope :=
  if au then
    { sc1 with stepCount := sc1.stepCount * value, unrollDepth := sc1.unrollDepth + 1 }
  else
    { sc1 with normalLoopDepth := sc1.normalLoopDepth + 1 }

/-- Modelled from the spec: the external substitution engine
(`ir::Substitute`) on expressions — replace occurrences of variable
`v`. -/
def substExpr (v : Nat) (e : Expr) : Expr → Expr
  | Expr.Var id ty => if id = v then e else Expr.Var id ty
  | Expr.Add a b => Expr.Add (substExpr v e a) (substExpr v e b)
  | Expr.IntImm ty x => Expr.IntImm ty x
  | Expr.UIntImm ty x => Expr.UIntImm ty x

/-- Modelled from the spec: the external substitution engine
(`ir::Substitute`) on statements — replace free occurrences of the
variable `v` by `e`, leaving unrelated bindings alone (a `For` that
rebinds `v` shadows it). -/
def substStmt (v : Nat) (e : Expr) : Stmt → Stmt
  | Stmt.For lv ty mn ext ft dev body =>
    Stmt.For lv ty (substExpr v e mn) (substExpr v e ext) ft dev
      (if lv = v then body else substStmt v e body)
  | Stmt.Store buf val idx => Stmt.Store buf (substExpr v e val) (substExpr v e idx)
  | Stmt.Evaluate ex => Stmt.Evaluate (substExpr v e ex)
  | Stmt.Block a b => Stmt.Block (substStmt v e a) (substStmt v e b)

/-- Modelled from the spec: `make_const(type, i)` — an integer literal of
the given numeric type (external helper, not in this repository's
sources). -/
def makeConst (ty : DType) (i : Int) : Expr :=
  match ty with
  | DType.uint32 => Expr.UIntImm ty i.toNat
  | _ => Expr.IntImm ty i

/-- Modelled from the spec: `arith::ComputeExpr<Add>` — the sum `a + b`,
folded to a literal when both operands are `IntImm` (external helper from
`src/arithmetic/compute_expr.h`, not under the provided sources). -/
def computeAdd (a b : Expr) : Expr :=
  match a, b with
  | Expr.IntImm ty x, Expr.IntImm _ y => Expr.IntImm ty (x + y)
  | _, _ => Expr.Add a b

/-- Lines 69-76: the `i`-th unrolled copy of the body: substitute the
loop variable by `min + i`, with the literal `i` built at the loop
variable's type. -/
def substStep (v : Nat) (ty : DType) (mn : Expr) (body : Stmt) (i : Nat) : Stmt :=
  substStmt v (computeAdd mn (makeConst ty (Int.ofNat i))) body

/-- The list of the `value` unrolled copies, in ascending `i` order. -/
def unrollSteps (v : Nat) (ty : DType) (mn : Expr) (body : Stmt) (value : Int) : List Stmt :=
  (List.range value.toNat).map (substStep v ty mn body)

/-- Lines 76-80: `unrolled = Block::make(unrolled, step)` — compose the
copies left-to-right into a left-nested chain of `Block`s.  (The `[]`
case is unreachable from the pass: it is only applied with a nonempty
list.) -/
def blockSeq : List Stmt → Stmt
  | [] => Stmt.Evaluate (Expr.IntImm DType.int32 0)
  | s :: rest => rest.foldl Stmt.Block s

/-- Lines 63-91: the statement returned for a loop node after the
decision `au`, with the already-rewritten body `bodyR`.  Materialization
(`explicit_unroll_`), the zero-extent no-op, the re-tagging branch, and
the pass-through branch mirror the source's branches. -/
def forResultStmt (cfg : Config) (v : Nat) (ty : DType) (mn ext : Expr)
    (ft : ForType) (dev : Nat) (bodyR : Stmt) (au : Bool) : Stmt :=
  let value := extentValue ext
  if au && cfg.explicitUnroll then
    if value = 0 then Stmt.Evaluate (Expr.IntImm DType.int32 0)
    else blockSeq (unrollSteps v ty mn bodyR value)
  else
    if au && !(decide (ft = ForType.Unrolled)) then
      Stmt.For v ty mn ext ForType.Unrolled dev bodyR
    else
      Stmt.For v ty mn ext ft dev bodyR

/-- `LoopUnroller::Mutate` — the whole mutator, with the member fields
passed explicitly as a `Scope`.  `For` recurses into the body first
(`IRMutator::Mutate_`), then decides; `Store` and `Evaluate` bump
`step_count_`; `Block` snapshots the scope after `first`, rewrites
`rest` from a fresh zero scope, and recombines (sum of step counts,
componentwise max of the depth counters).  `none` models the fatal
`CHECK` failure. -/
def mutateStmt (cfg : Config) : Stmt → Scope → Option (Stmt × Scope)
  | Stmt.For v ty mn ext ft dev body, sc =>
    match mutateStmt cfg body sc with
    | none => none
    | some (bodyR, sc1) =>
      match forDecision cfg ft ext sc1 with
      | none => none
      | some au =>
        some (forResultStmt cfg v ty mn ext ft dev bodyR au,
              forUpdateScope sc1 (extentValue ext) au)
  | Stmt.Store buf val idx, sc =>
    some (Stmt.Store buf val idx, { sc with stepCount := sc.stepCount + 1 })
  | Stmt.Evaluate e, sc =>
    some (Stmt.Evaluate e, { sc with stepCount := sc.stepCount + 1 })
  | Stmt.Block first rest, sc =>
    match mutateStmt cfg first sc with
    | none => none
    | some (f, sa) =>
      match mutateStmt cfg rest Scope.zero with
      | none => none
      | some (r, sb) =>
        some (if f = first ∧ r = rest then Stmt.Block first rest else Stmt.Block f r,
              { stepCount := sb.stepCount + sa.stepCount,
                unrollDepth := max sb.unrollDepth sa.unrollDepth,
                normalLoopDepth := max sa.normalLoopDepth sb.normalLoopDepth })

/-- Modelled from the spec: the external single-assignment renamer
(`ir::ConvertSSA`, not under the provided sources) returns an equivalent
tree in which every variable is bound exactly once.  The properties
verified here depend only on whether it is invoked and on trees with no
duplicated binders, on which renaming is the identity; it is therefore
modelled as the identity function. -/
def ConvertSSA (s : Stmt) : Stmt := s

/-- Lines 140-153: the entry point `UnrollLoop`.  Runs the mutator from
the zero scope; if the tree changed, applies `ConvertSSA` once. -/
def UnrollLoop (stmt : Stmt) (autoMaxStep autoMaxDepth : Int)
    (explicitUnroll : Bool) : Option Stmt :=
  match mutateStmt ⟨autoMaxStep, autoMaxDepth, explicitUnroll⟩ stmt Scope.zero with
  | none => none
  | some (ret, _) => if ret = stmt then some ret else some (ConvertSSA ret)

/-- Observation: how many times `UnrollLoop` invokes the renamer
(`ConvertSSA` sits on exactly one branch of the entry point). -/
def ssaInvocations (stmt : Stmt) (autoMaxStep autoMaxDepth : Int)
    (explicitUnroll : Bool) : Nat :=
  match mutateStmt ⟨autoMaxStep, autoMaxDepth, explicitUnroll⟩ stmt Scope.zero with
  | none => 0
  | some (ret, _) => if ret = stmt then 0 else 1

/-- Observation: the scope at which a `For` node's unroll decision is
evaluated — the scope produced by rewriting its body from the scope at
the loop's entry (the code recurses before deciding). -/
def forDecisionScope (cfg : Config) (body : Stmt) (sc : Scope) : Option Scope :=
  (mutateStmt cfg body sc).map Prod.snd

/-- Observation: `true` iff, during the rewrite of `s` from scope `sc`,
some loop node is decided NOT to be unrolled.  The recursion mirrors the
scoping of `mutateStmt` (a `Block`'s `rest` is evaluated from a fresh
zero scope). -/
def hasNormalLoop (cfg : Config) : Stmt → Scope → Bool
  | Stmt.For _ _ _ ext ft _ body, sc =>
    hasNormalLoop cfg body sc ||
    (match mutateStmt cfg body sc with
     | none => false
     | some (_, sc1) =>
       match forDecision cfg ft ext sc1 with
       | some false => true
       | _ => false)
  | Stmt.Block first rest, sc =>
    hasNormalLoop cfg first sc || hasNormalLoop cfg rest Scope.zero
  | _, _ => false

/-- Observation: `true` iff, during the rewrite of `s` from scope `sc`,
some loop node is decided to be unrolled. -/
def anyAutoUnroll (cfg : Config) : Stmt → Scope → Bool
  | Stmt.For _ _ _ ext ft _ body, sc =>
    anyAutoUnroll cfg body sc ||
    (match mutateStmt cfg body sc with
     | none => false
     | some (_, sc1) =>
       match forDecision cfg ft ext sc1 with
       | some true => true
       | _ => false)
  | Stmt.Block first rest, sc =>
    anyAutoUnroll cfg first sc || anyAutoUnroll cfg rest Scope.zero
  | _, _ => false

/-! ### Structural lemmas about the mutator -/

/-- Unfolding the `For` case of the mutator, forward direction. -/
theorem mutateStmt_for_eq (cfg : Config) (v : Nat) (ty : DType) (mn ext : Expr)
    (ft : ForType) (dev : Nat) (body bodyR : Stmt) (sc sc1 : Scope) (au : Bool)
    (hb : mutateStmt cfg body sc = some (bodyR, sc1))
    (hd : forDecision cfg ft ext sc1 = some au) :
    mutateStmt cfg (Stmt.For v ty mn ext ft dev body) sc =
      some (forResultStmt cfg v ty mn ext ft dev bodyR au,
            forUpdateScope sc1 (extentValue ext) au) := by
  simp [mutateStmt, hb, hd]

/-- Unfolding the `Block` case of the mutator, forward direction. -/
theorem mutateStmt_block_eq (cfg : Config) (first rest f r : Stmt) (sc sa sb : Scope)
    (h1 : mutateStmt cfg first sc = some (f, sa))
    (h2 : mutateStmt cfg rest Scope.zero = some (r, sb)) :
    mutateStmt cfg (Stmt.Block first rest) sc =
      some (if f = first ∧ r = rest then Stmt.Block first rest else Stmt.Block f r,
            ⟨sb.stepCount + sa.stepCount, max sb.unrollDepth sa.unrollDepth,
             max sa.normalLoopDepth sb.normalLoopDepth⟩) := by
  simp [mutateStmt, h1, h2]

/-- Inverting the `For` case of the mutator. -/
theorem mutateStmt_for_inv (cfg : Config) (v : Nat) (ty : DType) (mn ext : Expr)
    (ft : ForType) (dev : Nat) (body : Stmt) (sc : Scope) (r : Stmt) (sc' : Scope)
    (h : mutateStmt cfg (Stmt.For v ty mn ext ft dev body) sc = some (r, sc')) :
    ∃ bodyR sc1 au, mutateStmt cfg body sc = some (bodyR, sc1) ∧
      forDecision cfg ft ext sc1 = some au ∧
      r = forResultStmt cfg v ty mn ext ft dev bodyR au ∧
      sc' = forUpdateScope sc1 (extentValue ext) au := by
  rcases hb : mutateStmt cfg body sc with _ | ⟨bodyR, sc1⟩
  · simp only [mutateStmt, hb] at h
    exact Option.noConfusion h
  · simp only [mutateStmt, hb] at h
    rcases hd : forDecision cfg ft ext sc1 with _ | au
    · simp only [hd] at h
      exact Option.noConfusion h
    · simp only [hd, Option.some.injEq, Prod.mk.injEq] at h
      exact ⟨bodyR, sc1, au, rfl, hd, h.1.symm, h.2.symm⟩

/-- Inverting the `Block` case of the mutator. -/
theorem mutateStmt_block_inv (cfg : Config) (first rest : Stmt) (sc : Scope)
    (out : Stmt) (sc' : Scope)
    (h : mutateStmt cfg (Stmt.Block first rest) sc = some (out, sc')) :
    ∃ f sa r sb, mutateStmt cfg first sc = some (f, sa) ∧
      mutateStmt cfg rest Scope.zero = some (r, sb) ∧
      out = (if f = first ∧ r = rest then Stmt.Block first rest else Stmt.Block f r) ∧
      sc' = ⟨sb.stepCount + sa.stepCount, max sb.unrollDepth sa.unrollDepth,
             max sa.normalLoopDepth sb.normalLoopDepth⟩ := by
  rcases h1 : mutateStmt cfg first sc with _ | ⟨f, sa⟩
  · simp only [mutateStmt, h1] at h
    exact Option.noConfusion h
  · simp only [mutateStmt, h1] at h
    rcases h2 : mutateStmt cfg rest Scope.zero with _ | ⟨r, sb⟩
    · simp only [h2] at h
      exact Option.noConfusion h
    · simp only [h2, Option.some.injEq, Prod.mk.injEq] at h
      exact ⟨f, sa, r, sb, rfl, rfl, h.1.symm, h.2.symm⟩

/-- `normal_loop_depth_` never decreases along the traversal. -/
theorem mutate_normal_mono (cfg : Config) :
    ∀ (s : Stmt) (sc : Scope) (r : Stmt) (sc' : Scope),
      mutateStmt cfg s sc = some (r, sc') →
      sc.normalLoopDepth ≤ sc'.normalLoopDepth := by
  intro s
  induction s with
  | For v ty mn ext ft dev body ih =>
    intro sc r sc' h
    obtain ⟨bodyR, sc1, au, hb, _, _, hsc⟩ :=
      mutateStmt_for_inv cfg v ty mn ext ft dev body sc r sc' h
    have hmono := ih sc bodyR sc1 hb
    subst hsc
    unfold forUpdateScope
    split <;> simp <;> omega
  | Store buf val idx =>
    intro sc r sc' h
    simp only [mutateStmt, Option.some.injEq, Prod.mk.injEq] at h
    rw [← h.2]
  | Evaluate e =>
    intro sc r sc' h
    simp only [mutateStmt, Option.some.injEq, Prod.mk.injEq] at h
    rw [← h.2]
  | Block first rest ih1 ih2 =>
    intro sc r sc' h
    obtain ⟨f, sa, r2, sb, h1, _, _, hsc⟩ :=
      mutateStmt_block_inv cfg first rest sc r sc' h
    have hmono := ih1 sc f sa h1
    subst hsc
    simp only []
    exact le_trans hmono (le_max_left _ _)

/-- If some loop in the subtree is decided not to be unrolled, the
resulting `normal_loop_depth_` is positive (assuming it was nonnegative
at entry, which holds along every real traversal). -/
theorem hasNormal_pos (cfg : Config) :
    ∀ (s : Stmt) (sc : Scope) (r : Stmt) (sc' : Scope),
      hasNormalLoop cfg s sc = true → mutateStmt cfg s sc = some (r, sc') →
      0 ≤ sc.normalLoopDepth → 1 ≤ sc'.normalLoopDepth := by
  intro s
  induction s with
  | For v ty mn ext ft dev body ih =>
    intro sc r sc' hn h h0
    obtain ⟨bodyR, sc1, au, hb, hd, _, hsc⟩ :=
      mutateStmt_for_inv cfg v ty mn ext ft dev body sc r sc' h
    subst hsc
    cases au with
    | false =>
      have hmono := mutate_normal_mono cfg body sc bodyR sc1 hb
      unfold forUpdateScope
      simp only [Bool.false_eq_true, if_false]
      omega
    | true =>
      simp only [hasNormalLoop, hb, hd, Bool.or_eq_true] at hn
      rcases hn with hn | hn
      · have := ih sc bodyR sc1 hn hb h0
        unfold forUpdateScope
        simp only [if_true]
        omega
      · simp at hn
  | Store buf val idx =>
    intro sc r sc' hn h h0
    simp [hasNormalLoop] at hn
  | Evaluate e =>
    intro sc r sc' hn h h0
    simp [hasNormalLoop] at hn
  | Block first rest ih1 ih2 =>
    intro sc r sc' hn h h0
    obtain ⟨f, sa, r2, sb, h1, h2, _, hsc⟩ :=
      mutateStmt_block_inv cfg first rest sc r sc' h
    subst hsc
    simp only [hasNormalLoop, Bool.or_eq_true] at hn
    rcases hn with hn | hn
    · have := ih1 sc f sa hn h1 h0
      simp only []
      exact le_trans this (le_max_left _ _)
    · have := ih2 Scope.zero r2 sb hn h2 (by simp [Scope.zero])
      simp only []
      exact le_trans this (le_max_right _ _)

/-- If no loop in the subtree is decided to be unrolled, the mutator
returns the subtree unchanged. -/
theorem noAuto_id (cfg : Config) :
    ∀ (s : Stmt) (sc : Scope) (r : Stmt) (sc' : Scope),
      anyAutoUnroll cfg s sc = false → mutateStmt cfg s sc = some (r, sc') →
      r = s := by
  intro s
  induction s with
  | For v ty mn ext ft dev body ih =>
    intro sc r sc' ha h
    obtain ⟨bodyR, sc1, au, hb, hd, hr, _⟩ :=
      mutateStmt_for_inv cfg v ty mn ext ft dev body sc r sc' h
    simp only [anyAutoUnroll, hb, hd, Bool.or_eq_false_iff] at ha
    cases au with
    | true => simp at ha
    | false =>
      have hbid := ih sc bodyR sc1 ha.1 hb
      subst hbid
      rw [hr]
      unfold forResultStmt
      simp
  | Store buf val idx =>
    intro sc r sc' ha h
    simp only [mutateStmt, Option.some.injEq, Prod.mk.injEq] at h
    exact h.1.symm
  | Evaluate e =>
    intro sc r sc' ha h
    simp only [mutateStmt, Option.some.injEq, Prod.mk.injEq] at h
    exact h.1.symm
  | Block first rest ih1 ih2 =>
    intro sc r sc' ha h
    obtain ⟨f, sa, r2, sb, h1, h2, ho, _⟩ :=
      mutateStmt_block_inv cfg first rest sc r sc' h
    simp only [anyAutoUnroll, Bool.or_eq_false_iff] at ha
    have hf := ih1 sc f sa ha.1 h1
    have hr2 := ih2 Scope.zero r2 sb ha.2 h2
    rw [ho, hf, hr2]
    simp

/-- A value already in the signed 32-bit range is unchanged by the
`static_cast<int>` wrap. -/
theorem int32OfInt_eq_self (N : Int) (h1 : -(2 ^ 31) ≤ N) (h2 : N < 2 ^ 31) :
    int32OfInt N = N := by
  unfold int32OfInt
  omega

/-- The resolved extent of an in-range `IntImm` literal is its value. -/
theorem extentValue_intImm (ty : DType) (N : Int) (h1 : -(2 ^ 31) ≤ N)
    (h2 : N < 2 ^ 31) : extentValue (Expr.IntImm ty N) = N := by
  simp [extentValue, Simplify, int32OfInt_eq_self N h1 h2]

/-! ### Claim theorems -/

/-- C1: a Serial loop with resolved constant extent `N`, evaluated by the
unroller at scope `step_count = S`, `unroll_depth = D`,
`normal_loop_depth = 0`, is eligible for automatic unrolling iff
`N ≥ 0 ∧ D ≤ max_auto_depth ∧ N*S ≤ max_auto_step`; violating any one of
the conditions makes it ineligible. -/
theorem budget_gate (cfg : Config) (ty : DType) (N S D : Int)
    (h1 : -(2 ^ 31) ≤ N) (h2 : N < 2 ^ 31) :
    forDecision cfg ForType.Serial (Expr.IntImm ty N) ⟨S, D, 0⟩ = some true ↔
      (0 ≤ N ∧ D ≤ cfg.autoMaxDepth ∧ N * S ≤ cfg.autoMaxStep) := by
  have hv := extentValue_intImm ty N h1 h2
  simp [forDecision, autoUnrollCond, hv, and_assoc]

/-- Witness for C1: `N = 4`, `S = 1`, `D = 0`, budgets `(16, 8)`. -/
theorem budget_gate_witness :
    forDecision ⟨16, 8, true⟩ ForType.Serial (Expr.IntImm DType.int32 4)
      ⟨1, 0, 0⟩ = some true :=
  (budget_gate ⟨16, 8, true⟩ DType.int32 4 1 0 (by decide) (by decide)).mpr
    ⟨by decide, by decide, by decide⟩

/-- C2: an eligible loop with bound variable `v`, min `m`, resolved
constant extent `N > 0`, materializing, is replaced by exactly the
ordered left-to-right composition of the `N` statements
`substitute(body, v -> m + i)` for `i = 0, …, N-1` (the literal `i`
built at the bound variable's numeric type), with no other statement
inserted or reordered and the loop node itself removed. -/
theorem exact_expansion (cfg : Config) (v : Nat) (ty : DType) (mn ext : Expr)
    (ft : ForType) (dev : Nat) (body bodyR : Stmt) (sc sc1 : Scope) (N : Int)
    (hb : mutateStmt cfg body sc = some (bodyR, sc1))
    (hd : forDecision cfg ft ext sc1 = some true)
    (hex : cfg.explicitUnroll = true)
    (hN : extentValue ext = N) (hpos : 0 < N) :
    mutateStmt cfg (Stmt.For v ty mn ext ft dev body) sc =
      some (blockSeq ((List.range N.toNat).map fun i =>
              substStmt v (computeAdd mn (makeConst ty (Int.ofNat i))) bodyR),
            { sc1 with stepCount := sc1.stepCount * N,
                       unrollDepth := sc1.unrollDepth + 1 }) ∧
    ((List.range N.toNat).map fun i =>
        substStmt v (computeAdd mn (makeConst ty (Int.ofNat i))) bodyR).length
      = N.toNat := by
  constructor
  · rw [mutateStmt_for_eq cfg v ty mn ext ft dev body bodyR sc sc1 true hb hd]
    unfold forResultStmt forUpdateScope
    rw [hN]
    simp only [hex, Bool.and_self, if_true, unrollSteps]
    rw [if_neg (by omega : ¬ (N = 0))]
    rfl
  · simp

/-- Witness for C2: extent 2, min 0, a `Store` body. -/
theorem exact_expansion_witness :
    mutateStmt ⟨16, 8, true⟩
      (Stmt.For 0 DType.int32 (Expr.IntImm DType.int32 0)
        (Expr.IntImm DType.int32 2) ForType.Serial 0
        (Stmt.Store 10 (Expr.Var 0 DType.int32) (Expr.Var 0 DType.int32)))
      Scope.zero =
      some (blockSeq ((List.range (Int.toNat 2)).map fun i =>
              substStmt 0 (computeAdd (Expr.IntImm DType.int32 0)
                (makeConst DType.int32 (Int.ofNat i)))
                (Stmt.Store 10 (Expr.Var 0 DType.int32) (Expr.Var 0 DType.int32))),
            { stepCount := 1 * 2, unrollDepth := 0 + 1, normalLoopDepth := 0 }) ∧
    ((List.range (Int.toNat 2)).map fun i =>
        substStmt 0 (computeAdd (Expr.IntImm DType.int32 0)
          (makeConst DType.int32 (Int.ofNat i)))
          (Stmt.Store 10 (Expr.Var 0 DType.int32) (Expr.Var 0 DType.int32))).length
      = Int.toNat 2 :=
  exact_expansion ⟨16, 8, true⟩ 0 DType.int32 (Expr.IntImm DType.int32 0)
    (Expr.IntImm DType.int32 2) ForType.Serial 0
    (Stmt.Store 10 (Expr.Var 0 DType.int32) (Expr.Var 0 DType.int32))
    (Stmt.Store 10 (Expr.Var 0 DType.int32) (Expr.Var 0 DType.int32))
    Scope.zero ⟨1, 0, 0⟩ 2 (by decide) (by decide) rfl (by decide) (by decide)

/-- C3 counterexample: an `Unrolled`-tagged loop whose extent resolves to
the known (negative) literal `-2`: the claim predicts the pass never
fails on a loop whose extent resolves to a known value, yet the pass
aborts (`CHECK_GE(value, 0)` fires). -/
theorem forced_unroll_fatal_cex :
    Simplify (Expr.IntImm DType.int32 (-2)) = Expr.IntImm DType.int32 (-2) ∧
    mutateStmt ⟨16, 8, true⟩
      (Stmt.For 0 DType.int32 (Expr.IntImm DType.int32 0)
        (Expr.IntImm DType.int32 (-2)) ForType.Unrolled 0
        (Stmt.Evaluate (Expr.IntImm DType.int32 0))) Scope.zero = none := by
  decide

/-- C3 (amended): an `Unrolled`-tagged loop whose extent does not resolve
to a literal with non-negative (32-bit-cast) value fails fatally; one
whose extent resolves to a non-negative value never fails, regardless of
the budget parameters, and is treated as eligible unconditionally. -/
theorem forced_unroll_fatal (cfg : Config) (v : Nat) (ty : DType) (mn ext : Expr)
    (dev : Nat) (body bodyR : Stmt) (sc sc1 : Scope)
    (hb : mutateStmt cfg body sc = some (bodyR, sc1)) :
    (extentValue ext < 0 →
       mutateStmt cfg (Stmt.For v ty mn ext ForType.Unrolled dev body) sc = none) ∧
    (0 ≤ extentValue ext →
       forDecision cfg ForType.Unrolled ext sc1 = some true ∧
       mutateStmt cfg (Stmt.For v ty mn ext ForType.Unrolled dev body) sc =
         some (forResultStmt cfg v ty mn ext ForType.Unrolled dev bodyR true,
               { sc1 with stepCount := sc1.stepCount * extentValue ext,
                          unrollDepth := sc1.unrollDepth + 1 })) := by
  constructor
  · intro hneg
    simp only [mutateStmt, hb]
    simp [forDecision, hneg]
  · intro hpos
    have hd : forDecision cfg ForType.Unrolled ext sc1 = some true := by
      simp [forDecision, not_lt.mpr hpos]
    refine ⟨hd, ?_⟩
    rw [mutateStmt_for_eq cfg v ty mn ext ForType.Unrolled dev body bodyR sc sc1 true hb hd]
    rfl

/-- Witness for C3: extent 100 with tiny budgets `(0, 0)` still succeeds. -/
theorem forced_unroll_fatal_witness :
    mutateStmt ⟨0, 0, false⟩
      (Stmt.For 0 DType.int32 (Expr.IntImm DType.int32 0)
        (Expr.IntImm DType.int32 100) ForType.Unrolled 0
        (Stmt.Evaluate (Expr.IntImm DType.int32 0))) Scope.zero =
      some (forResultStmt ⟨0, 0, false⟩ 0 DType.int32 (Expr.IntImm DType.int32 0)
              (Expr.IntImm DType.int32 100) ForType.Unrolled 0
              (Stmt.Evaluate (Expr.IntImm DType.int32 0)) true,
            { stepCount := 1 * extentValue (Expr.IntImm DType.int32 100),
              unrollDepth := 0 + 1, normalLoopDepth := 0 }) :=
  ((forced_unroll_fatal ⟨0, 0, false⟩ 0 DType.int32 (Expr.IntImm DType.int32 0)
      (Expr.IntImm DType.int32 100) 0 (Stmt.Evaluate (Expr.IntImm DType.int32 0))
      (Stmt.Evaluate (Expr.IntImm DType.int32 0)) Scope.zero ⟨1, 0, 0⟩
      (by decide)).2 (by decide)).2

/-- C4: for a `Sequence` whose two children, each evaluated from a fresh
all-zero scope, produce local counters `(s1,u1,n1)` and `(s2,u2,n2)`,
the scope after the `Sequence` is `step_count = s1+s2`,
`unroll_depth = max u1 u2`, `normal_loop_depth = max n1 n2`; in
particular neither sibling's eligibility decision is affected by the
other sibling's step count. -/
theorem sequence_counter_algebra (cfg : Config) (first rest f r : Stmt)
    (sa sb : Scope)
    (h1 : mutateStmt cfg first Scope.zero = some (f, sa))
    (h2 : mutateStmt cfg rest Scope.zero = some (r, sb)) :
    ∃ out, mutateStmt cfg (Stmt.Block first rest) Scope.zero =
      some (out, ⟨sa.stepCount + sb.stepCount, max sa.unrollDepth sb.unrollDepth,
                  max sa.normalLoopDepth sb.normalLoopDepth⟩) := by
  have hs : (⟨sa.stepCount + sb.stepCount, max sa.unrollDepth sb.unrollDepth,
              max sa.normalLoopDepth sb.normalLoopDepth⟩ : Scope) =
      ⟨sb.stepCount + sa.stepCount, max sb.unrollDepth sa.unrollDepth,
       max sa.normalLoopDepth sb.normalLoopDepth⟩ := by
    simp only [Scope.mk.injEq]
    exact ⟨Int.add_comm _ _, max_comm _ _, trivial⟩
  exact ⟨_, by
    rw [hs]
    exact mutateStmt_block_eq cfg first rest f r Scope.zero sa sb h1 h2⟩

/-- Witness for C4: two sibling `Store`s. -/
theorem sequence_counter_algebra_witness :
    ∃ out, mutateStmt ⟨16, 8, true⟩
      (Stmt.Block (Stmt.Store 1 (Expr.IntImm DType.int32 0) (Expr.IntImm DType.int32 0))
        (Stmt.Store 2 (Expr.IntImm DType.int32 0) (Expr.IntImm DType.int32 0)))
      Scope.zero =
      some (out, ⟨(1 : Int) + 1, max 0 0, max 0 0⟩) :=
  sequence_counter_algebra ⟨16, 8, true⟩
    (Stmt.Store 1 (Expr.IntImm DType.int32 0) (Expr.IntImm DType.int32 0))
    (Stmt.Store 2 (Expr.IntImm DType.int32 0) (Expr.IntImm DType.int32 0))
    (Stmt.Store 1 (Expr.IntImm DType.int32 0) (Expr.IntImm DType.int32 0))
    (Stmt.Store 2 (Expr.IntImm DType.int32 0) (Expr.IntImm DType.int32 0))
    ⟨1, 0, 0⟩ ⟨1, 0, 0⟩ (by decide) (by decide)

/-- C5 counterexample: an eligible Serial loop of resolved extent 0 in
tag-only mode (`explicit_unroll = false`).  The claim predicts a no-op
replacement regardless of mode, but the pass returns the loop itself,
re-tagged `Unrolled` — a `For` node, not the no-op statement that
materialize mode produces for the same input. -/
theorem zero_extent_cex :
    mutateStmt ⟨16, 8, false⟩
      (Stmt.For 0 DType.int32 (Expr.IntImm DType.int32 0)
        (Expr.IntImm DType.int32 0) ForType.Serial 0
        (Stmt.Evaluate (Expr.IntImm DType.int32 0))) Scope.zero =
      some (Stmt.For 0 DType.int32 (Expr.IntImm DType.int32 0)
              (Expr.IntImm DType.int32 0) ForType.Unrolled 0
              (Stmt.Evaluate (Expr.IntImm DType.int32 0)), ⟨0, 1, 0⟩) ∧
    mutateStmt ⟨16, 8, true⟩
      (Stmt.For 0 DType.int32 (Expr.IntImm DType.int32 0)
        (Expr.IntImm DType.int32 0) ForType.Serial 0
        (Stmt.Evaluate (Expr.IntImm DType.int32 0))) Scope.zero =
      some (Stmt.Evaluate (Expr.IntImm DType.int32 0), ⟨0, 1, 0⟩) ∧
    Stmt.For 0 DType.int32 (Expr.IntImm DType.int32 0)
        (Expr.IntImm DType.int32 0) ForType.Unrolled 0
        (Stmt.Evaluate (Expr.IntImm DType.int32 0)) ≠
      Stmt.Evaluate (Expr.IntImm DType.int32 0) := by
  decide

/-- C5 (amended): an eligible loop of resolved extent 0 becomes the no-op
`Evaluate 0` in materialize mode; in tag-only mode it is instead returned
as a loop tagged `Unrolled` (body rewritten), deferring unrolling
downstream.  In both modes `step_count` becomes 0 and `unroll_depth`
increments. -/
theorem zero_extent_collapse (cfg : Config) (v : Nat) (ty : DType) (mn ext : Expr)
    (ft : ForType) (dev : Nat) (body bodyR : Stmt) (sc sc1 : Scope)
    (hb : mutateStmt cfg body sc = some (bodyR, sc1))
    (hd : forDecision cfg ft ext sc1 = some true)
    (hz : extentValue ext = 0) :
    (cfg.explicitUnroll = true →
       mutateStmt cfg (Stmt.For v ty mn ext ft dev body) sc =
         some (Stmt.Evaluate (Expr.IntImm DType.int32 0),
               { sc1 with stepCount := 0, unrollDepth := sc1.unrollDepth + 1 })) ∧
    (cfg.explicitUnroll = false →
       mutateStmt cfg (Stmt.For v ty mn ext ft dev body) sc =
         some (Stmt.For v ty mn ext ForType.Unrolled dev bodyR,
               { sc1 with stepCount := 0, unrollDepth := sc1.unrollDepth + 1 })) := by
  have hm := mutateStmt_for_eq cfg v ty mn ext ft dev body bodyR sc sc1 true hb hd
  constructor
  · intro hex
    rw [hm]
    unfold forResultStmt forUpdateScope
    simp [hex, hz]
  · intro hex
    rw [hm]
    unfold forResultStmt forUpdateScope
    by_cases hft : ft = ForType.Unrolled
    · simp [hex, hz, hft]
    · simp [hex, hz, hft]

/-- Witness for C5: a concrete zero-extent loop in materialize mode. -/
theorem zero_extent_collapse_witness :
    mutateStmt ⟨16, 8, true⟩
      (Stmt.For 0 DType.int32 (Expr.IntImm DType.int32 0)
        (Expr.IntImm DType.int32 0) ForType.Serial 0
        (Stmt.Evaluate (Expr.IntImm DType.int32 0))) Scope.zero =
      some (Stmt.Evaluate (Expr.IntImm DType.int32 0),
            { stepCount := 0, unrollDepth := 0 + 1, normalLoopDepth := 0 }) :=
  (zero_extent_collapse ⟨16, 8, true⟩ 0 DType.int32 (Expr.IntImm DType.int32 0)
    (Expr.IntImm DType.int32 0) ForType.Serial 0
    (Stmt.Evaluate (Expr.IntImm DType.int32 0))
    (Stmt.Evaluate (Expr.IntImm DType.int32 0)) Scope.zero ⟨1, 0, 0⟩
    (by decide) (by decide) (by decide)).1 rfl

/-- C6: if no loop anywhere in the tree is eligible for unrolling, the
entry point returns a tree identical to its input and the
single-assignment renamer is not invoked; conversely the renamer is
applied exactly once when the tree was structurally changed. -/
theorem identity_preservation (a b : Int) (e : Bool) (stmt r : Stmt) (sc' : Scope)
    (h : mutateStmt ⟨a, b, e⟩ stmt Scope.zero = some (r, sc')) :
    (anyAutoUnroll ⟨a, b, e⟩ stmt Scope.zero = false →
       UnrollLoop stmt a b e = some stmt ∧ ssaInvocations stmt a b e = 0) ∧
    (r ≠ stmt →
       UnrollLoop stmt a b e = some (ConvertSSA r) ∧
       ssaInvocations stmt a b e = 1) := by
  constructor
  · intro ha
    have hid := noAuto_id ⟨a, b, e⟩ stmt Scope.zero r sc' ha h
    subst hid
    simp [UnrollLoop, ssaInvocations, h]
  · intro hne
    simp [UnrollLoop, ssaInvocations, h, hne]

/-- Witness for C6: a Serial loop with unknown (variable) extent — not
eligible — passes through unchanged, renamer count 0. -/
theorem identity_preservation_witness :
    UnrollLoop (Stmt.For 0 DType.int32 (Expr.IntImm DType.int32 0)
        (Expr.Var 5 DType.int32) ForType.Serial 0
        (Stmt.Evaluate (Expr.IntImm DType.int32 0))) 16 8 true =
      some (Stmt.For 0 DType.int32 (Expr.IntImm DType.int32 0)
        (Expr.Var 5 DType.int32) ForType.Serial 0
        (Stmt.Evaluate (Expr.IntImm DType.int32 0))) ∧
    ssaInvocations (Stmt.For 0 DType.int32 (Expr.IntImm DType.int32 0)
        (Expr.Var 5 DType.int32) ForType.Serial 0
        (Stmt.Evaluate (Expr.IntImm DType.int32 0))) 16 8 true = 0 :=
  (identity_preservation 16 8 true
    (Stmt.For 0 DType.int32 (Expr.IntImm DType.int32 0)
      (Expr.Var 5 DType.int32) ForType.Serial 0
      (Stmt.Evaluate (Expr.IntImm DType.int32 0)))
    (Stmt.For 0 DType.int32 (Expr.IntImm DType.int32 0)
      (Expr.Var 5 DType.int32) ForType.Serial 0
      (Stmt.Evaluate (Expr.IntImm DType.int32 0)))
    ⟨1, 0, 1⟩ (by decide)).1 (by decide)

/-- The end-to-end example input of the spec:
`Loop(i, min=0, extent=4, Serial, body=Store(a[i], i))`. -/
def exLoop7 : Stmt :=
  Stmt.For 0 DType.int32 (Expr.IntImm DType.int32 0) (Expr.IntImm DType.int32 4)
    ForType.Serial 0 (Stmt.Store 10 (Expr.Var 0 DType.int32) (Expr.Var 0 DType.int32))

/-- What the pass actually produces for `exLoop7`: the four copies in
ascending order, composed as a LEFT-nested chain of `Block`s. -/
def exLeft7 : Stmt :=
  Stmt.Block
    (Stmt.Block
      (Stmt.Block (Stmt.Store 10 (Expr.IntImm DType.int32 0) (Expr.IntImm DType.int32 0))
        (Stmt.Store 10 (Expr.IntImm DType.int32 1) (Expr.IntImm DType.int32 1)))
      (Stmt.Store 10 (Expr.IntImm DType.int32 2) (Expr.IntImm DType.int32 2)))
    (Stmt.Store 10 (Expr.IntImm DType.int32 3) (Expr.IntImm DType.int32 3))

/-- The RIGHT-nested tree the claim says is produced. -/
def exRight7 : Stmt :=
  Stmt.Block (Stmt.Store 10 (Expr.IntImm DType.int32 0) (Expr.IntImm DType.int32 0))
    (Stmt.Block (Stmt.Store 10 (Expr.IntImm DType.int32 1) (Expr.IntImm DType.int32 1))
      (Stmt.Block (Stmt.Store 10 (Expr.IntImm DType.int32 2) (Expr.IntImm DType.int32 2))
        (Stmt.Store 10 (Expr.IntImm DType.int32 3) (Expr.IntImm DType.int32 3))))

/-- C7 counterexample: on the spec's end-to-end input with parameters
`(16, 8, materialize)`, the output is NOT the right-nested
`Sequence(S0, Sequence(S1, Sequence(S2, S3)))` the claim states: the
pass builds `Block(Block(Block(S0,S1),S2),S3)`, i.e. left-nested. -/
theorem end_to_end_nesting_cex :
    UnrollLoop exLoop7 16 8 true = some exLeft7 ∧
    ¬ UnrollLoop exLoop7 16 8 true = some exRight7 := by
  decide

/-- C7 (amended): on input `Loop(i, 0, 4, Serial, Store(a[i], i))` with
`(max_auto_step=16, max_auto_depth=8, materialize=true)` the output is
the LEFT-nested sequence
`Sequence(Sequence(Sequence(Store(a[0],0), Store(a[1],1)), Store(a[2],2)), Store(a[3],3))`
— four copies in ascending index order. -/
theorem end_to_end_example : UnrollLoop exLoop7 16 8 true = some exLeft7 := by
  decide

/-- C8 counterexample: consider the root loop
`For(j, 0, 1, Serial, body = For(i, 0, 1, Serial, Evaluate 0))` under
budgets `(16, 8)`.  The root has no ancestor loops, so the claim
predicts `unroll_depth = 0` at the moment its eligibility is evaluated;
but the traversal state at that moment — the state after rewriting its
body, shown here — has `unroll_depth = 1`, contributed by the decided
*descendant* loop (the traversal is post-order, so no ancestor is ever
decided before a node). -/
theorem depth_semantics_cex :
    forDecisionScope ⟨16, 8, false⟩
      (Stmt.For 1 DType.int32 (Expr.IntImm DType.int32 0)
        (Expr.IntImm DType.int32 1) ForType.Serial 0
        (Stmt.Evaluate (Expr.IntImm DType.int32 0))) Scope.zero =
      some ⟨1, 1, 0⟩ ∧ (1 : Int) ≠ 0 := by
  decide

/-- C8 (amended): at the moment a loop's eligibility is evaluated, the
traversal state equals the state produced by rewriting the loop's own
body from the loop's entry state — ancestors, decided only afterwards
(post-order), contribute nothing beyond the entry state; the loops
already counted are those decided inside the body just processed — and
the loop's own decision then increments `unroll_depth` by one if it
unrolls, `normal_loop_depth` by one otherwise. -/
theorem depth_counters_post_order (cfg : Config) (v : Nat) (ty : DType)
    (mn ext : Expr) (ft : ForType) (dev : Nat) (body bodyR : Stmt)
    (sc sc1 : Scope) (au : Bool)
    (hb : mutateStmt cfg body sc = some (bodyR, sc1))
    (hd : forDecision cfg ft ext sc1 = some au) :
    forDecisionScope cfg body sc = some sc1 ∧
    mutateStmt cfg (Stmt.For v ty mn ext ft dev body) sc =
      some (forResultStmt cfg v ty mn ext ft dev bodyR au,
            if au then
              { sc1 with stepCount := sc1.stepCount * extentValue ext,
                         unrollDepth := sc1.unrollDepth + 1 }
            else { sc1 with normalLoopDepth := sc1.normalLoopDepth + 1 }) := by
  refine ⟨by simp [forDecisionScope, hb], ?_⟩
  rw [mutateStmt_for_eq cfg v ty mn ext ft dev body bodyR sc sc1 au hb hd]
  rfl

/-- Witness for C8 (amended): the counterexample's nested pair. -/
theorem depth_counters_post_order_witness :
    forDecisionScope ⟨16, 8, false⟩
      (Stmt.For 1 DType.int32 (Expr.IntImm DType.int32 0)
        (Expr.IntImm DType.int32 1) ForType.Serial 0
        (Stmt.Evaluate (Expr.IntImm DType.int32 0))) Scope.zero =
      some ⟨1, 1, 0⟩ ∧
    mutateStmt ⟨16, 8, false⟩
      (Stmt.For 0 DType.int32 (Expr.IntImm DType.int32 0)
        (Expr.IntImm DType.int32 1) ForType.Serial 0
        (Stmt.For 1 DType.int32 (Expr.IntImm DType.int32 0)
          (Expr.IntImm DType.int32 1) ForType.Serial 0
          (Stmt.Evaluate (Expr.IntImm DType.int32 0)))) Scope.zero =
      some (forResultStmt ⟨16, 8, false⟩ 0 DType.int32 (Expr.IntImm DType.int32 0)
              (Expr.IntImm DType.int32 1) ForType.Serial 0
              (Stmt.For 1 DType.int32 (Expr.IntImm DType.int32 0)
                (Expr.IntImm DType.int32 1) ForType.Unrolled 0
                (Stmt.Evaluate (Expr.IntImm DType.int32 0))) true,
            if true then
              { Scope.mk 1 1 0 with
                  stepCount := (1 : Int) * extentValue (Expr.IntImm DType.int32 1),
                  unrollDepth := (1 : Int) + 1 }
            else { Scope.mk 1 1 0 with normalLoopDepth := (0 : Int) + 1 }) :=
  depth_counters_post_order ⟨16, 8, false⟩ 0 DType.int32 (Expr.IntImm DType.int32 0)
    (Expr.IntImm DType.int32 1) ForType.Serial 0
    (Stmt.For 1 DType.int32 (Expr.IntImm DType.int32 0)
      (Expr.IntImm DType.int32 1) ForType.Serial 0
      (Stmt.Evaluate (Expr.IntImm DType.int32 0)))
    (Stmt.For 1 DType.int32 (Expr.IntImm DType.int32 0)
      (Expr.IntImm DType.int32 1) ForType.Unrolled 0
      (Stmt.Evaluate (Expr.IntImm DType.int32 0)))
    Scope.zero ⟨1, 1, 0⟩ true (by decide) (by decide)

/-- C9: a Serial loop whose (rewritten) body contains at least one loop
that was not chosen for unrolling is never automatically unrolled — its
decision sees a positive `normal_loop_depth` — while a loop explicitly
tagged `Unrolled` is still decided unrolled in the same situation (given
a resolvable extent). -/
theorem undecided_inner_blocks_outer (cfg : Config) (v : Nat) (ty : DType)
    (mn ext : Expr) (dev : Nat) (body bodyR : Stmt) (sc sc1 : Scope)
    (hb : mutateStmt cfg body sc = some (bodyR, sc1))
    (hn : hasNormalLoop cfg body sc = true)
    (h0 : 0 ≤ sc.normalLoopDepth) :
    mutateStmt cfg (Stmt.For v ty mn ext ForType.Serial dev body) sc =
      some (Stmt.For v ty mn ext ForType.Serial dev bodyR,
            { sc1 with normalLoopDepth := sc1.normalLoopDepth + 1 }) ∧
    (0 ≤ extentValue ext →
       forDecision cfg ForType.Unrolled ext sc1 = some true) := by
  have hpos := hasNormal_pos cfg body sc bodyR sc1 hn hb h0
  have hzero : decide (sc1.normalLoopDepth = 0) = false := decide_eq_false (by omega)
  have hcond : autoUnrollCond cfg ForType.Serial (extentValue ext) sc1 = false := by
    simp [autoUnrollCond, hzero]
  have hd : forDecision cfg ForType.Serial ext sc1 = some false := by
    simp [forDecision, hcond]
  constructor
  · rw [mutateStmt_for_eq cfg v ty mn ext ForType.Serial dev body bodyR sc sc1 false hb hd]
    unfold forResultStmt forUpdateScope
    simp
  · intro hext
    simp [forDecision, not_lt.mpr hext]

/-- Witness for C9: body contains a variable-extent (undecided) loop. -/
theorem undecided_inner_blocks_outer_witness :
    mutateStmt ⟨16, 8, true⟩
      (Stmt.For 0 DType.int32 (Expr.IntImm DType.int32 0)
        (Expr.IntImm DType.int32 4) ForType.Serial 0
        (Stmt.For 1 DType.int32 (Expr.IntImm DType.int32 0)
          (Expr.Var 5 DType.int32) ForType.Serial 0
          (Stmt.Evaluate (Expr.IntImm DType.int32 0)))) Scope.zero =
      some (Stmt.For 0 DType.int32 (Expr.IntImm DType.int32 0)
              (Expr.IntImm DType.int32 4) ForType.Serial 0
              (Stmt.For 1 DType.int32 (Expr.IntImm DType.int32 0)
                (Expr.Var 5 DType.int32) ForType.Serial 0
                (Stmt.Evaluate (Expr.IntImm DType.int32 0))),
            { Scope.mk 1 0 1 with normalLoopDepth := (1 : Int) + 1 }) ∧
    (0 ≤ extentValue (Expr.IntImm DType.int32 4) →
       forDecision ⟨16, 8, true⟩ ForType.Unrolled (Expr.IntImm DType.int32 4)
         ⟨1, 0, 1⟩ = some true) :=
  undecided_inner_blocks_outer ⟨16, 8, true⟩ 0 DType.int32
    (Expr.IntImm DType.int32 0) (Expr.IntImm DType.int32 4) 0
    (Stmt.For 1 DType.int32 (Expr.IntImm DType.int32 0)
      (Expr.Var 5 DType.int32) ForType.Serial 0
      (Stmt.Evaluate (Expr.IntImm DType.int32 0)))
    (Stmt.For 1 DType.int32 (Expr.IntImm DType.int32 0)
      (Expr.Var 5 DType.int32) ForType.Serial 0
      (Stmt.Evaluate (Expr.IntImm DType.int32 0)))
    Scope.zero ⟨1, 0, 1⟩ (by decide) (by decide) (by decide)

/-- C10: a Serial (not `Unrolled`-tagged) loop whose extent simplifies to
a negative integer literal does not make the pass fail: it is handled
exactly like an unknown extent — ineligible for automatic unrolling,
returned unchanged except for its rewritten body, with
`normal_loop_depth` incremented. -/
theorem negative_extent_like_unknown (cfg : Config) (v : Nat) (ty : DType)
    (mn : Expr) (dev : Nat) (body bodyR : Stmt) (sc sc1 : Scope) (N : Int)
    (hb : mutateStmt cfg body sc = some (bodyR, sc1))
    (h1 : -(2 ^ 31) ≤ N) (h2 : N < 0) :
    autoUnrollCond cfg ForType.Serial (extentValue (Expr.IntImm ty N)) sc1 = false ∧
    mutateStmt cfg (Stmt.For v ty mn (Expr.IntImm ty N) ForType.Serial dev body) sc =
      some (Stmt.For v ty mn (Expr.IntImm ty N) ForType.Serial dev bodyR,
            { sc1 with normalLoopDepth := sc1.normalLoopDepth + 1 }) := by
  have hv : extentValue (Expr.IntImm ty N) = N :=
    extentValue_intImm ty N h1 (by omega)
  have hcond : autoUnrollCond cfg ForType.Serial N sc1 = false := by
    have hns : decide ((0 : Int) ≤ N) = false := decide_eq_false (by omega)
    simp [autoUnrollCond, hns]
  have hd : forDecision cfg ForType.Serial (Expr.IntImm ty N) sc1 = some false := by
    simp [forDecision, hv, hcond]
  refine ⟨by rw [hv]; exact hcond, ?_⟩
  rw [mutateStmt_for_eq cfg v ty mn (Expr.IntImm ty N) ForType.Serial dev body bodyR
    sc sc1 false hb hd]
  unfold forResultStmt forUpdateScope
  simp

/-- Witness for C10: extent literal `-5`. -/
theorem negative_extent_like_unknown_witness :
    autoUnrollCond ⟨16, 8, true⟩ ForType.Serial
      (extentValue (Expr.IntImm DType.int32 (-5))) ⟨1, 0, 0⟩ = false ∧
    mutateStmt ⟨16, 8, true⟩
      (Stmt.For 0 DType.int32 (Expr.IntImm DType.int32 0)
        (Expr.IntImm DType.int32 (-5)) ForType.Serial 0
        (Stmt.Evaluate (Expr.IntImm DType.int32 0))) Scope.zero =
      some (Stmt.For 0 DType.int32 (Expr.IntImm DType.int32 0)
              (Expr.IntImm DType.int32 (-5)) ForType.Serial 0
              (Stmt.Evaluate (Expr.IntImm DType.int32 0)),
            { Scope.mk 1 0 0 with normalLoopDepth := (0 : Int) + 1 }) :=
  negative_extent_like_unknown ⟨16, 8, true⟩ 0 DType.int32
    (Expr.IntImm DType.int32 0) 0 (Stmt.Evaluate (Expr.IntImm DType.int32 0))
    (Stmt.Evaluate (Expr.IntImm DType.int32 0)) Scope.zero ⟨1, 0, 0⟩ (-5)
    (by decide) (by decide) (by decide)

end TVMUnroll
